import Mathlib

/-!
Verification of the peroxide-discord execution core (`src/main.rs`).

The development is a shallow embedding of the program:

* a functional layer for `InterruptingInterpreter::run_string`
  (main.rs lines 35-50), the worker loop body (lines 150-158) and the
  Dispatcher's reply rendering (lines 121-128), with the evaluator
  (the `peroxide` crate) abstracted as an oracle `EvalSpec` describing
  the outcome of parsing and running one command;
* a small-step interleaving semantics `Step` of the whole system
  (Handler::message lines 102-118, the worker thread lines 152-158 and
  the interruptor thread lines 40-44), used for the concurrency and
  temporal claims.
-/

namespace PeroxideDiscord

instance {ε α : Type} [DecidableEq ε] [DecidableEq α] : DecidableEq (Except ε α) :=
  fun a b =>
    match a, b with
    | .ok x, .ok y =>
        if h : x = y then isTrue (by rw [h]) else isFalse (by intro hc; cases hc; exact h rfl)
    | .ok _, .error _ => isFalse (by intro hc; cases hc)
    | .error _, .ok _ => isFalse (by intro hc; cases hc)
    | .error x, .error y =>
        if h : x = y then isTrue (by rw [h]) else isFalse (by intro hc; cases hc; exact h rfl)

/-- The per-execution deadline: `Duration::from_secs(5)` passed to
`recv_timeout` in `run_string` (main.rs line 41). -/
def executionDeadlineSecs : Nat := 5

/-- The queue-access deadline: `Duration::from_secs(15)` passed to
`tokio::time::timeout` around the lock acquisition (main.rs line 106). -/
def queueAccessDeadlineSecs : Nat := 15

/-- Abstract behavior of the peroxide evaluator on one command; the
evaluator is a black box, so its outcomes are oracle data.
`parse` is the outcome of `peroxide::read::read` (line 36),
`runResult` the outcome of `parse_compile_run` (line 45),
`runSeconds` the wall-clock duration of `parse_compile_run`, and
`guardExitedBeforeCancel` resolves the race, in the case where the
interruptor already fired, between the interruptor thread reaching the
end of its closure (dropping `recv`) and the worker executing
`send.send(())` (lines 46-47). -/
structure EvalSpec where
  parse : Except String Unit
  runResult : Except String String
  runSeconds : Nat
  guardExitedBeforeCancel : Bool

/-- Observable outcome of one `run_string` call: the returned value plus
the effects the claims talk about (whether the interruptor thread was
spawned, whether `parse_compile_run` was invoked, how many times the
interrupt signal was asserted, whether the interruptor thread was joined). -/
structure RunOutcome where
  result : Except String String
  guardSpawned : Bool
  evalInvoked : Bool
  interruptCount : Nat
  joinedGuard : Bool
deriving DecidableEq

/-- `InterruptingInterpreter::run_string` (main.rs lines 35-50), with the
evaluator abstracted by `e : EvalSpec` and the pretty-printer
`p.pp().pretty_print()` (line 49) abstracted by `pp`.

* line 36-37: a parse failure returns `Err("parse error: " ++ e)` at once;
* lines 40-44: the interruptor thread waits `recv_timeout(5s)`; the
  cancel message is sent when `parse_compile_run` returns, i.e. after
  `e.runSeconds` seconds, so the timeout branch (which calls
  `interruptor_clone.interrupt()` once) runs iff `5 < e.runSeconds`;
* lines 46-47: `send.send(())` fails iff the interruptor thread has
  already exited, which requires it to have fired; on failure the `?`
  returns `Err("error sending res: ...")` without reaching the join;
* line 48-49: otherwise the thread is joined and the evaluation result is
  returned, mapped through the pretty-printer. -/
def run_string (pp : String → String) (e : EvalSpec) : RunOutcome :=
  match e.parse with
  | .error m =>
      { result := .error ("parse error: " ++ m)
        guardSpawned := false
        evalInvoked := false
        interruptCount := 0
        joinedGuard := false }
  | .ok _ =>
      let fired : Bool := decide (executionDeadlineSecs < e.runSeconds)
      let sendFailed : Bool := fired && e.guardExitedBeforeCancel
      if sendFailed then
        { result := .error "error sending res: SendError(())"
          guardSpawned := true
          evalInvoked := true
          interruptCount := if fired then 1 else 0
          joinedGuard := false }
      else
        { result := Except.map pp e.runResult
          guardSpawned := true
          evalInvoked := true
          interruptCount := if fired then 1 else 0
          joinedGuard := true }

/-- One request as the worker loop sees it: the command (abstracted by its
evaluator behavior) plus whether the caller's reply receiver still exists
when the worker executes `rc.send` (the receiver is owned by external
async tasks, so its liveness is an environment input). -/
structure IncomingRequest where
  command : EvalSpec
  receiverAlive : Bool

/-- How the worker loop (main.rs lines 155-157) ends up after consuming a
finite prefix of its input:
still blocked in `recv.recv()` (channel open, no more requests yet),
exited normally because `recv` returned `Err` (all senders dropped), or
dead because `rc.send(...).unwrap()` panicked. -/
inductive LoopOutcome
  | waitingOnRecv
  | exitedChannelClosed
  | panickedOnDeliver
deriving DecidableEq

/-- The worker loop `while let Ok((command, rc)) = recv.recv()`
(main.rs lines 155-157) run over a finite sequence of incoming requests;
`closedAfter` tells whether the channel's sending side is dropped after
the last request. Returns the list of results actually delivered and the
loop's status. On a request whose receiver has vanished the result is
computed but `rc.send(result).unwrap()` panics, ending the loop. -/
def workerLoop (pp : String → String) :
    List IncomingRequest → Bool → List (Except String String) × LoopOutcome
  | [], false => ([], .waitingOnRecv)
  | [], true => ([], .exitedChannelClosed)
  | r :: rs, closedAfter =>
      let res := (run_string pp r.command).result
      if r.receiverAlive then
        let rest := workerLoop pp rs closedAfter
        (res :: rest.1, rest.2)
      else
        ([], .panickedOnDeliver)

/-- The Dispatcher's quoting of the original message:
`START_OF_LINE.replace_all(trimmed_content, "> ")` with the regex
`(?m)^` (main.rs lines 67, 121): insert `"> "` at the start of the text
and after every newline. -/
def quoteLines (s : String) : String :=
  "> " ++ String.intercalate "\n> " (s.splitOn "\n")

/-- The Dispatcher's reply rendering (main.rs lines 122-125): quoted
original content followed by the result in backticks on success, or by
`*Error*: ...` on failure. -/
def renderResponse (trimmedContent : String)
    (result : Except String String) : String :=
  match result with
  | .ok resultString => quoteLines trimmedContent ++ "\n`" ++ resultString ++ "`"
  | .error errorString => quoteLines trimmedContent ++ "\n*Error*: " ++ errorString

/-- `response.chars().take(1000).collect::<String>()` (main.rs line 127). -/
def limitResponse (response : String) : String :=
  (response.toList.take 1000).asString

/-- `tokio::time::timeout(Duration::from_secs(15), send_channel.lock())`
(main.rs lines 106, 117), as a function of how long the caller would have
to wait for the mutex: within the deadline the lock is obtained, past it
the call returns `Err("timeout waiting for interpreter lock")`. -/
def acquireSendLock (lockAvailableAfterSecs : Nat) : Except String Unit :=
  if lockAvailableAfterSecs ≤ queueAccessDeadlineSecs then .ok ()
  else .error "timeout waiting for interpreter lock"

/-! ## Small-step interleaving semantics of the whole system

One worker thread (main.rs lines 152-158 plus the body of `run_string`),
one interruptor thread per execution (lines 40-44), and any number of
concurrent `Handler::message` invocations (lines 102-118).  Callers are
identified by natural numbers; the command caller `i` submits is
abstracted by `cmds i : Cmd`.  Timing (the 15 s lock timeout, the 5 s
`recv_timeout`) is abstracted into nondeterministic scheduling: a step is
enabled whenever some real-time schedule could take it. -/

/-- Abstract behavior of the command submitted by one caller: the outcome
of `peroxide::read::read` and of `parse_compile_run`. -/
structure Cmd where
  parse : Except String Unit
  runResult : Except String String

/-- Control point of the worker thread.  `booting` is the
`InterruptingInterpreter::new()` call (lines 153); `atRecv` is the thread
blocked in `recv.recv()` (line 155); `parsing`..`delivering` trace one
iteration (`run_string` then `rc.send`), carrying the id of the caller
whose request is in flight; `looping` is the instant after `rc.send`
returned and before `recv.recv()` is entered again. -/
inductive WorkerPC
  | booting
  | atRecv
  | parsing (c : Nat)
  | evaluating (c : Nat)
  | cancelling (c : Nat) (r : Except String String)
  | joining (c : Nat) (r : Except String String)
  | delivering (c : Nat) (r : Except String String)
  | looping
deriving DecidableEq

/-- State of the interruptor thread of the current execution.
`off`: no thread (none spawned yet, or the previous one's handle was
dropped).  `running c cancelSent`: the thread is blocked in
`recv_timeout` supervising caller `c`'s execution; `cancelSent` records
whether the worker already executed `send.send(())`.  `firedRunning c`:
`recv_timeout` timed out and `interrupt()` was called, the thread has not
yet exited (its `recv` end is still live).  `done c`: the thread exited
(its `recv` end is dropped). -/
inductive GuardPC
  | off
  | running (c : Nat) (cancelSent : Bool)
  | firedRunning (c : Nat)
  | done (c : Nat)
deriving DecidableEq

/-- Control point of one caller (`Handler::message`, lines 102-118).
`start`: awaiting `tokio::time::timeout(15s, send_channel.lock())`;
`hasLock`: the timeout returned `Ok(channel)`, the caller holds the mutex
and is about to `try_send`; `awaitReply`: `try_send` succeeded, blocked
in `response_receiver.recv()` (still holding the mutex — the guard is
dropped at the end of the match arm); `gotResult r`: reply received,
mutex released, terminal; `timedOut m`: the timeout returned `Err`,
terminal with error message `m`; `panicked`: `try_send(..).unwrap()`
panicked (the underlying `try_send` failed), terminal, mutex released
during unwinding. -/
inductive CallerPC
  | start
  | hasLock
  | awaitReply
  | gotResult (r : Except String String)
  | timedOut (m : String)
  | panicked
deriving DecidableEq

/-- Update one caller's control point. -/
def setC (f : Nat → CallerPC) (i : Nat) (v : CallerPC) : Nat → CallerPC :=
  fun j => if j = i then v else f j

/-- Global system state.  `lock` is the holder of the tokio
`Mutex<SyncSender<BackAndForth>>`.  `processed`, `delivered` and
`interruptsFor` are histories: the callers whose request completed the
`try_send` rendezvous, the `(caller, result)` pairs delivered by
`rc.send`, and the callers during whose execution the interrupt signal
was asserted. -/
structure Sys where
  worker : WorkerPC
  guard : GuardPC
  callers : Nat → CallerPC
  lock : Option Nat
  processed : List Nat
  delivered : List (Nat × Except String String)
  interruptsFor : List Nat

/-- Initial state: main has spawned the worker thread (which is
constructing the interpreter), no message handled yet. -/
def initSys : Sys :=
  { worker := .booting
    guard := .off
    callers := fun _ => .start
    lock := none
    processed := []
    delivered := []
    interruptsFor := [] }

/-- The caller whose request the worker currently holds, if any. -/
def workerOwner : WorkerPC → Option Nat
  | .parsing c => some c
  | .evaluating c => some c
  | .cancelling c _ => some c
  | .joining c _ => some c
  | .delivering c _ => some c
  | _ => none

/-- The caller whose request the worker is executing (the phase during
which an interruptor thread may exist), if any. -/
def execPhase : WorkerPC → Option Nat
  | .evaluating c => some c
  | .cancelling c _ => some c
  | .joining c _ => some c
  | _ => none

/-- Whether the interruptor thread of the current execution is alive. -/
def guardAlive : GuardPC → Bool
  | .running _ _ => true
  | .firedRunning _ => true
  | _ => false

/-- The caller supervised by the live interruptor thread, if any. -/
def guardAliveFor : GuardPC → Option Nat
  | .running c _ => some c
  | .firedRunning c => some c
  | _ => none

/-- One interleaving step of the system, parameterized by the commands
`cmds` the callers submit and the evaluator's pretty-printer `pp`.
Each constructor is one atomic action of one thread, read off the source:

* `bootDone`: `InterruptingInterpreter::new()` returns, the worker enters
  `recv.recv()` (line 155);
* `acquireLock` / `lockTimeout`: the `tokio::time::timeout(15s, lock())`
  future resolves `Ok` / `Err` (lines 106-107, 117);
* `trySendOk` / `trySendFail`: `channel.try_send(..)` on the
  zero-capacity channel (line 110) succeeds iff the worker is currently
  blocked in `recv.recv()`; on failure `.unwrap()` panics the caller;
* `parseOk` / `parseErr`: `peroxide::read::read` (lines 36-37); on
  success the interruptor thread is spawned (lines 40-44);
* `guardFire`: `recv_timeout` times out before the cancel message is
  sent and the thread calls `interrupt()` (lines 41-42);
* `guardExit`: the fired interruptor thread exits, dropping `recv`;
* `guardCancelReceived`: `recv_timeout` returns `Ok` on the cancel
  message and the thread exits without interrupting;
* `evalDone`: `parse_compile_run` returns (line 45);
* `cancelSendOk` / `cancelSendOkFired`: `send.send(())` succeeds because
  the interruptor thread's `recv` end is still live (line 46);
* `cancelSendFail`: `send.send(())` fails because the interruptor thread
  already exited; the `?` makes `run_string` return the send error,
  skipping the join (lines 46-47);
* `joinDone`: `interruptor_thread.join()` returns, which requires the
  thread to have exited; `run_string` returns the evaluation result
  mapped through the pretty-printer (lines 48-49);
* `deliverReply`: `rc.send(result)` (line 156) rendezvouses with the
  caller's `response_receiver.recv()` (lines 112-115); the caller's
  mutex guard is dropped at the end of the match arm;
* `loopBack`: the worker re-enters `recv.recv()`. -/
inductive Step (cmds : Nat → Cmd) (pp : String → String) : Sys → Sys → Prop
  | bootDone (s : Sys) (hw : s.worker = .booting) :
      Step cmds pp s { s with worker := .atRecv }
  | acquireLock (s : Sys) (i : Nat) (hc : s.callers i = .start) (hl : s.lock = none) :
      Step cmds pp s { s with callers := setC s.callers i .hasLock, lock := some i }
  | lockTimeout (s : Sys) (i : Nat) (hc : s.callers i = .start) :
      Step cmds pp s
        { s with callers := setC s.callers i (.timedOut "timeout waiting for interpreter lock") }
  | trySendOk (s : Sys) (i : Nat) (hc : s.callers i = .hasLock) (hw : s.worker = .atRecv) :
      Step cmds pp s
        { s with worker := .parsing i
                 callers := setC s.callers i .awaitReply
                 processed := s.processed ++ [i] }
  | trySendFail (s : Sys) (i : Nat) (hc : s.callers i = .hasLock) (hw : s.worker ≠ .atRecv) :
      Step cmds pp s { s with callers := setC s.callers i .panicked, lock := none }
  | parseOk (s : Sys) (i : Nat) (u : Unit) (hw : s.worker = .parsing i)
      (hp : (cmds i).parse = .ok u) :
      Step cmds pp s { s with worker := .evaluating i, guard := .running i false }
  | parseErr (s : Sys) (i : Nat) (m : String) (hw : s.worker = .parsing i)
      (hp : (cmds i).parse = .error m) :
      Step cmds pp s { s with worker := .delivering i (.error ("parse error: " ++ m)) }
  | guardFire (s : Sys) (i : Nat) (hg : s.guard = .running i false) :
      Step cmds pp s
        { s with guard := .firedRunning i, interruptsFor := s.interruptsFor ++ [i] }
  | guardExit (s : Sys) (i : Nat) (hg : s.guard = .firedRunning i) :
      Step cmds pp s { s with guard := .done i }
  | guardCancelReceived (s : Sys) (i : Nat) (hg : s.guard = .running i true) :
      Step cmds pp s { s with guard := .done i }
  | evalDone (s : Sys) (i : Nat) (hw : s.worker = .evaluating i) :
      Step cmds pp s { s with worker := .cancelling i (cmds i).runResult }
  | cancelSendOk (s : Sys) (i : Nat) (r : Except String String)
      (hw : s.worker = .cancelling i r) (hg : s.guard = .running i false) :
      Step cmds pp s { s with worker := .joining i r, guard := .running i true }
  | cancelSendOkFired (s : Sys) (i : Nat) (r : Except String String)
      (hw : s.worker = .cancelling i r) (hg : s.guard = .firedRunning i) :
      Step cmds pp s { s with worker := .joining i r }
  | cancelSendFail (s : Sys) (i : Nat) (r : Except String String)
      (hw : s.worker = .cancelling i r) (hg : s.guard = .done i) :
      Step cmds pp s
        { s with worker := .delivering i (.error "error sending res: SendError(())") }
  | joinDone (s : Sys) (i : Nat) (r : Except String String)
      (hw : s.worker = .joining i r) (hg : s.guard = .done i) :
      Step cmds pp s { s with worker := .delivering i (Except.map pp r) }
  | deliverReply (s : Sys) (i : Nat) (r : Except String String)
      (hw : s.worker = .delivering i r) (hc : s.callers i = .awaitReply) :
      Step cmds pp s
        { s with worker := .looping
                 callers := setC s.callers i (.gotResult r)
                 lock := none
                 delivered := s.delivered ++ [(i, r)] }
  | loopBack (s : Sys) (hw : s.worker = .looping) :
      Step cmds pp s { s with worker := .atRecv }

/-- Reflexive-transitive closure of `Step`. -/
inductive Steps (cmds : Nat → Cmd) (pp : String → String) : Sys → Sys → Prop
  | refl (s : Sys) : Steps cmds pp s s
  | tail {s t u : Sys} : Steps cmds pp s t → Step cmds pp t u → Steps cmds pp s u

/-- A state is reachable if some interleaving leads to it from `initSys`. -/
def Reach (cmds : Nat → Cmd) (pp : String → String) (s : Sys) : Prop :=
  Steps cmds pp initSys s





/-- The inductive invariant of the system.  Its fields:
the worker holds caller `i`'s request iff `i` is blocked awaiting its
reply; the mutex is held by `i` iff `i` is between lock acquisition and
reply reception; the `processed` history matches the callers whose
request completed the rendezvous; the `delivered` history matches the
callers holding a result, with no caller delivered to twice; a timed-out
caller carries the lock-timeout error message; a live interruptor thread
supervises exactly the execution the worker is currently running; and
the interruptor-thread state is consistent with the worker's control
point during an execution. -/
structure Inv (s : Sys) : Prop where
  owner_iff : ∀ i, workerOwner s.worker = some i ↔ s.callers i = .awaitReply
  lock_iff : ∀ i, s.lock = some i ↔ (s.callers i = .hasLock ∨ s.callers i = .awaitReply)
  proc_iff : ∀ i, i ∈ s.processed ↔
    (s.callers i = .awaitReply ∨ ∃ r, s.callers i = .gotResult r)
  deliv_iff : ∀ i r, (i, r) ∈ s.delivered ↔ s.callers i = .gotResult r
  deliv_nodup : (s.delivered.map Prod.fst).Nodup
  timeout_msg : ∀ i m, s.callers i = .timedOut m → m = "timeout waiting for interpreter lock"
  guard_live : ∀ i, guardAliveFor s.guard = some i → execPhase s.worker = some i
  g_eval : ∀ i, s.worker = .evaluating i →
    s.guard = .running i false ∨ s.guard = .firedRunning i ∨ s.guard = .done i
  g_cancel : ∀ i r, s.worker = .cancelling i r →
    s.guard = .running i false ∨ s.guard = .firedRunning i ∨ s.guard = .done i
  g_join : ∀ i r, s.worker = .joining i r →
    s.guard = .running i true ∨ s.guard = .firedRunning i ∨ s.guard = .done i


/-- Commands that all parse and evaluate to `3`, for concrete traces. -/
def cmdsOk : Nat → Cmd := fun _ => { parse := .ok (), runResult := .ok "3" }

/-- Commands that all fail to parse, for concrete traces. -/
def cmdsBad : Nat → Cmd := fun _ => { parse := .error "unexpected EOF", runResult := .ok "3" }

/-- A parseable command whose evaluation finishes within the deadline. -/
def specFast : EvalSpec :=
  { parse := .ok (), runResult := .ok "3", runSeconds := 1, guardExitedBeforeCancel := false }

/-- A parseable command whose evaluation outlives the 5 s deadline. -/
def specSlow : EvalSpec :=
  { parse := .ok (), runResult := .error "interrupted", runSeconds := 10,
    guardExitedBeforeCancel := false }

/-- An unparseable command, such as the text `(+ 1`. -/
def specBad : EvalSpec :=
  { parse := .error "unexpected EOF", runResult := .ok "3", runSeconds := 0,
    guardExitedBeforeCancel := false }

/-- A request whose caller still waits on its reply slot at delivery time. -/
def reqLiveReceiver : IncomingRequest := { command := specFast, receiverAlive := true }

/-- A request whose caller's reply receiver has been dropped. -/
def reqDeadReceiver : IncomingRequest := { command := specFast, receiverAlive := false }

/-- Trace state: the worker finished booting and sits in `recv.recv()`. -/
def sMid1 : Sys := { initSys with worker := .atRecv }

/-- Trace state: caller 0 acquired the mutex while the worker waits. -/
def sMid2 : Sys := { sMid1 with callers := setC sMid1.callers 0 .hasLock, lock := some 0 }

/-- Trace state: caller 0 completed the `try_send` rendezvous. -/
def sMid3 : Sys :=
  { sMid2 with
    worker := .parsing 0
    callers := setC sMid2.callers 0 .awaitReply
    processed := [0] }

/-- Trace state: parse succeeded, interruptor thread armed. -/
def sMid4 : Sys := { sMid3 with worker := .evaluating 0, guard := .running 0 false }

/-- Trace state: evaluation returned. -/
def sMid5 : Sys := { sMid4 with worker := .cancelling 0 (.ok "3") }

/-- Trace state: cancel message sent, worker joining the interruptor. -/
def sMid6 : Sys := { sMid5 with worker := .joining 0 (.ok "3"), guard := .running 0 true }

/-- Trace state: the interruptor thread received the cancel and exited. -/
def sMid7 : Sys := { sMid6 with guard := .done 0 }

/-- Trace state: join returned, worker about to send the reply. -/
def sMid8 : Sys := { sMid7 with worker := .delivering 0 (.ok "3") }

/-- Trace state: the reply was delivered to caller 0. -/
def sDone : Sys :=
  { sMid8 with
    worker := .looping
    callers := setC sMid8.callers 0 (.gotResult (.ok "3"))
    lock := none
    delivered := [(0, .ok "3")] }

/-- Trace state: a parse failure was turned into a pending error reply. -/
def sErr : Sys :=
  { sMid3 with worker := .delivering 0 (.error ("parse error: " ++ "unexpected EOF")) }

/-- Trace state: caller 0 acquired the mutex while the worker is still
booting (the interpreter is initializing), so no receiver is at the
rendezvous. -/
def sLockedBoot : Sys :=
  { initSys with callers := setC initSys.callers 0 .hasLock, lock := some 0 }

/-- Trace state: caller 0's `try_send(..).unwrap()` panicked. -/
def sPanicked : Sys :=
  { sLockedBoot with callers := setC sLockedBoot.callers 0 .panicked, lock := none }

/-- Trace state: caller 0's lock acquisition timed out. -/
def sTimedOut : Sys :=
  { initSys with
    callers := setC initSys.callers 0 (.timedOut "timeout waiting for interpreter lock") }

theorem Steps.single {cmds pp} {s t : Sys} (h : Step cmds pp s t) :
    Steps cmds pp s t :=
  Steps.tail (Steps.refl s) h

theorem Steps.trans {cmds pp} {s t u : Sys} (h₁ : Steps cmds pp s t)
    (h₂ : Steps cmds pp t u) : Steps cmds pp s u := by
  induction h₂ with
  | refl => exact h₁
  | tail _ st ih => exact Steps.tail ih st

@[simp]
theorem setC_self (f : Nat → CallerPC) (i : Nat) (v : CallerPC) : setC f i v i = v := by
  simp [setC]

theorem setC_ne (f : Nat → CallerPC) (i : Nat) (v : CallerPC) (j : Nat) (h : j ≠ i) :
    setC f i v j = f j := by
  simp [setC, h]

theorem inv_init : Inv initSys := by
  refine ⟨?_, ?_, ?_, ?_, ?_, ?_, ?_, ?_, ?_, ?_⟩ <;>
    simp [initSys, workerOwner, execPhase, guardAliveFor]

theorem inv_step {cmds : Nat → Cmd} {pp : String → String} {s s' : Sys}
    (h : Inv s) (st : Step cmds pp s s') : Inv s' := by
  obtain ⟨o, l, p, d, dn, tm, gl, ge, gc, gj⟩ := h
  cases st with
  | bootDone hw =>
    refine ⟨?_, l, p, d, dn, tm, ?_, ?_, ?_, ?_⟩
    · intro j
      dsimp only
      simp only [workerOwner]
      constructor
      · intro hj; cases hj
      · intro hj
        have := (o j).mpr hj
        rw [hw] at this
        simp [workerOwner] at this
    · intro j hj
      have := gl j hj
      rw [hw] at this
      simp [execPhase] at this
    · intro j hj; dsimp only at hj; cases hj
    · intro j r hj; dsimp only at hj; cases hj
    · intro j r hj; dsimp only at hj; cases hj
  | acquireLock i hc hl =>
    refine ⟨?_, ?_, ?_, ?_, dn, ?_, gl, ge, gc, gj⟩
    · intro j
      dsimp only
      by_cases hji : j = i
      · subst hji
        rw [setC_self]
        constructor
        · intro hj
          have := (o j).mp hj
          rw [hc] at this; cases this
        · intro hj; cases hj
      · rw [setC_ne _ _ _ _ hji]; exact o j
    · intro j
      dsimp only
      by_cases hji : j = i
      · subst hji
        rw [setC_self]
        constructor
        · intro _; exact Or.inl rfl
        · intro _; rfl
      · rw [setC_ne _ _ _ _ hji]
        constructor
        · intro hj
          cases hj; exact absurd rfl hji
        · intro hj
          have := (l j).mpr hj
          rw [hl] at this; cases this
    · intro j
      dsimp only
      by_cases hji : j = i
      · subst hji
        rw [setC_self]
        constructor
        · intro hj
          have := (p j).mp hj
          rcases this with hj2 | ⟨r, hj2⟩ <;> rw [hc] at hj2 <;> cases hj2
        · intro hj; rcases hj with hj | ⟨r, hj⟩ <;> cases hj
      · rw [setC_ne _ _ _ _ hji]; exact p j
    · intro j r
      dsimp only
      by_cases hji : j = i
      · subst hji
        rw [setC_self]
        constructor
        · intro hj
          have := (d j r).mp hj
          rw [hc] at this; cases this
        · intro hj; cases hj
      · rw [setC_ne _ _ _ _ hji]; exact d j r
    · intro j m hj
      dsimp only at hj
      by_cases hji : j = i
      · subst hji; rw [setC_self] at hj; cases hj
      · rw [setC_ne _ _ _ _ hji] at hj; exact tm j m hj
  | lockTimeout i hc =>
    refine ⟨?_, ?_, ?_, ?_, dn, ?_, gl, ge, gc, gj⟩
    · intro j
      dsimp only
      by_cases hji : j = i
      · subst hji
        rw [setC_self]
        constructor
        · intro hj
          have := (o j).mp hj
          rw [hc] at this; cases this
        · intro hj; cases hj
      · rw [setC_ne _ _ _ _ hji]; exact o j
    · intro j
      dsimp only
      by_cases hji : j = i
      · subst hji
        rw [setC_self]
        constructor
        · intro hj
          have := (l j).mp hj
          rcases this with hj2 | hj2 <;> rw [hc] at hj2 <;> cases hj2
        · intro hj; rcases hj with hj | hj <;> cases hj
      · rw [setC_ne _ _ _ _ hji]; exact l j
    · intro j
      dsimp only
      by_cases hji : j = i
      · subst hji
        rw [setC_self]
        constructor
        · intro hj
          have := (p j).mp hj
          rcases this with hj2 | ⟨r, hj2⟩ <;> rw [hc] at hj2 <;> cases hj2
        · intro hj; rcases hj with hj | ⟨r, hj⟩ <;> cases hj
      · rw [setC_ne _ _ _ _ hji]; exact p j
    · intro j r
      dsimp only
      by_cases hji : j = i
      · subst hji
        rw [setC_self]
        constructor
        · intro hj
          have := (d j r).mp hj
          rw [hc] at this; cases this
        · intro hj; cases hj
      · rw [setC_ne _ _ _ _ hji]; exact d j r
    · intro j m hj
      dsimp only at hj
      by_cases hji : j = i
      · subst hji
        rw [setC_self] at hj
        cases hj; rfl
      · rw [setC_ne _ _ _ _ hji] at hj; exact tm j m hj
  | trySendOk i hc hw =>
    refine ⟨?_, ?_, ?_, ?_, dn, ?_, ?_, ?_, ?_, ?_⟩
    · intro j
      dsimp only
      simp only [workerOwner]
      by_cases hji : j = i
      · subst hji
        rw [setC_self]
        simp
      · rw [setC_ne _ _ _ _ hji]
        constructor
        · intro hj
          cases hj; exact absurd rfl hji
        · intro hj
          have := (o j).mpr hj
          rw [hw] at this
          simp [workerOwner] at this
    · intro j
      dsimp only
      have hli : s.lock = some i := (l i).mpr (Or.inl hc)
      by_cases hji : j = i
      · subst hji
        rw [setC_self]
        constructor
        · intro _; exact Or.inr rfl
        · intro _; exact hli
      · rw [setC_ne _ _ _ _ hji]
        constructor
        · intro hj
          rw [hli] at hj; cases hj; exact absurd rfl hji
        · intro hj
          have := (l j).mpr hj
          rw [hli] at this; cases this; exact absurd rfl hji
    · intro j
      dsimp only
      by_cases hji : j = i
      · subst hji
        rw [setC_self]
        constructor
        · intro _; exact Or.inl rfl
        · intro _; exact List.mem_append.mpr (Or.inr (List.mem_singleton.mpr rfl))
      · rw [setC_ne _ _ _ _ hji]
        constructor
        · intro hj
          rcases List.mem_append.mp hj with hj2 | hj2
          · exact (p j).mp hj2
          · rw [List.mem_singleton] at hj2; exact absurd hj2 hji
        · intro hj
          exact List.mem_append.mpr (Or.inl ((p j).mpr hj))
    · intro j r
      dsimp only
      by_cases hji : j = i
      · subst hji
        rw [setC_self]
        constructor
        · intro hj
          have := (d j r).mp hj
          rw [hc] at this; cases this
        · intro hj; cases hj
      · rw [setC_ne _ _ _ _ hji]; exact d j r
    · intro j m hj
      dsimp only at hj
      by_cases hji : j = i
      · subst hji; rw [setC_self] at hj; cases hj
      · rw [setC_ne _ _ _ _ hji] at hj; exact tm j m hj
    · intro j hj
      dsimp only at hj ⊢
      have := gl j hj
      rw [hw] at this
      simp [execPhase] at this
    · intro j hj; dsimp only at hj; cases hj
    · intro j r hj; dsimp only at hj; cases hj
    · intro j r hj; dsimp only at hj; cases hj
  | trySendFail i hc hw =>
    refine ⟨?_, ?_, ?_, ?_, dn, ?_, gl, ge, gc, gj⟩
    · intro j
      dsimp only
      by_cases hji : j = i
      · subst hji
        rw [setC_self]
        constructor
        · intro hj
          have := (o j).mp hj
          rw [hc] at this; cases this
        · intro hj; cases hj
      · rw [setC_ne _ _ _ _ hji]; exact o j
    · intro j
      dsimp only
      have hli : s.lock = some i := (l i).mpr (Or.inl hc)
      by_cases hji : j = i
      · subst hji
        rw [setC_self]
        constructor
        · intro hj; cases hj
        · intro hj; rcases hj with hj | hj <;> cases hj
      · rw [setC_ne _ _ _ _ hji]
        constructor
        · intro hj; cases hj
        · intro hj
          have := (l j).mpr hj
          rw [hli] at this; cases this; exact absurd rfl hji
    · intro j
      dsimp only
      by_cases hji : j = i
      · subst hji
        rw [setC_self]
        constructor
        · intro hj
          have := (p j).mp hj
          rcases this with hj2 | ⟨r, hj2⟩ <;> rw [hc] at hj2 <;> cases hj2
        · intro hj; rcases hj with hj | ⟨r, hj⟩ <;> cases hj
      · rw [setC_ne _ _ _ _ hji]; exact p j
    · intro j r
      dsimp only
      by_cases hji : j = i
      · subst hji
        rw [setC_self]
        constructor
        · intro hj
          have := (d j r).mp hj
          rw [hc] at this; cases this
        · intro hj; cases hj
      · rw [setC_ne _ _ _ _ hji]; exact d j r
    · intro j m hj
      dsimp only at hj
      by_cases hji : j = i
      · subst hji; rw [setC_self] at hj; cases hj
      · rw [setC_ne _ _ _ _ hji] at hj; exact tm j m hj
  | parseOk i u hw hp =>
    refine ⟨?_, l, p, d, dn, tm, ?_, ?_, ?_, ?_⟩
    · intro j
      dsimp only
      have hoj := o j
      rw [hw] at hoj
      simpa [workerOwner] using hoj
    · intro j hj
      dsimp only at hj ⊢
      simp [guardAliveFor] at hj
      subst hj
      simp [execPhase]
    · intro j hj
      dsimp only at hj ⊢
      cases hj
      exact Or.inl rfl
    · intro j r hj; dsimp only at hj; cases hj
    · intro j r hj; dsimp only at hj; cases hj
  | parseErr i m hw hp =>
    refine ⟨?_, l, p, d, dn, tm, ?_, ?_, ?_, ?_⟩
    · intro j
      dsimp only
      have hoj := o j
      rw [hw] at hoj
      simpa [workerOwner] using hoj
    · intro j hj
      dsimp only at hj ⊢
      have := gl j hj
      rw [hw] at this
      simp [execPhase] at this
    · intro j hj; dsimp only at hj; cases hj
    · intro j r hj; dsimp only at hj; cases hj
    · intro j r hj; dsimp only at hj; cases hj
  | guardFire i hg =>
    refine ⟨o, l, p, d, dn, tm, ?_, ?_, ?_, ?_⟩
    · intro j hj
      dsimp only at hj ⊢
      simp [guardAliveFor] at hj
      subst hj
      apply gl
      rw [hg]; rfl
    · intro j hj
      dsimp only at hj ⊢
      have := ge j hj
      rcases this with h2 | h2 | h2 <;> rw [hg] at h2 <;> cases h2
      exact Or.inr (Or.inl rfl)
    · intro j r hj
      dsimp only at hj ⊢
      have := gc j r hj
      rcases this with h2 | h2 | h2 <;> rw [hg] at h2 <;> cases h2
      exact Or.inr (Or.inl rfl)
    · intro j r hj
      dsimp only at hj ⊢
      have := gj j r hj
      rcases this with h2 | h2 | h2 <;> rw [hg] at h2 <;> cases h2
  | guardExit i hg =>
    refine ⟨o, l, p, d, dn, tm, ?_, ?_, ?_, ?_⟩
    · intro j hj
      dsimp only at hj
      simp [guardAliveFor] at hj
    · intro j hj
      dsimp only at hj ⊢
      have := ge j hj
      rcases this with h2 | h2 | h2 <;> rw [hg] at h2 <;> cases h2
      exact Or.inr (Or.inr rfl)
    · intro j r hj
      dsimp only at hj ⊢
      have := gc j r hj
      rcases this with h2 | h2 | h2 <;> rw [hg] at h2 <;> cases h2
      exact Or.inr (Or.inr rfl)
    · intro j r hj
      dsimp only at hj ⊢
      have := gj j r hj
      rcases this with h2 | h2 | h2 <;> rw [hg] at h2 <;> cases h2
      exact Or.inr (Or.inr rfl)
  | guardCancelReceived i hg =>
    refine ⟨o, l, p, d, dn, tm, ?_, ?_, ?_, ?_⟩
    · intro j hj
      dsimp only at hj
      simp [guardAliveFor] at hj
    · intro j hj
      dsimp only at hj ⊢
      have := ge j hj
      rcases this with h2 | h2 | h2 <;> rw [hg] at h2 <;> cases h2
    · intro j r hj
      dsimp only at hj ⊢
      have := gc j r hj
      rcases this with h2 | h2 | h2 <;> rw [hg] at h2 <;> cases h2
    · intro j r hj
      dsimp only at hj ⊢
      have := gj j r hj
      rcases this with h2 | h2 | h2 <;> rw [hg] at h2 <;> cases h2
      exact Or.inr (Or.inr rfl)
  | evalDone i hw =>
    refine ⟨?_, l, p, d, dn, tm, ?_, ?_, ?_, ?_⟩
    · intro j
      dsimp only
      have hoj := o j
      rw [hw] at hoj
      simpa [workerOwner] using hoj
    · intro j hj
      dsimp only at hj ⊢
      have := gl j hj
      rw [hw] at this
      simp [execPhase] at this
      subst this
      simp [execPhase]
    · intro j hj; dsimp only at hj; cases hj
    · intro j r hj
      dsimp only at hj ⊢
      cases hj
      exact ge i hw
    · intro j r hj; dsimp only at hj; cases hj
  | cancelSendOk i r hw hg =>
    refine ⟨?_, l, p, d, dn, tm, ?_, ?_, ?_, ?_⟩
    · intro j
      dsimp only
      have hoj := o j
      rw [hw] at hoj
      simpa [workerOwner] using hoj
    · intro j hj
      dsimp only at hj ⊢
      simp [guardAliveFor] at hj
      subst hj
      simp [execPhase]
    · intro j hj; dsimp only at hj; cases hj
    · intro j r' hj; dsimp only at hj; cases hj
    · intro j r' hj
      dsimp only at hj ⊢
      cases hj
      exact Or.inl rfl
  | cancelSendOkFired i r hw hg =>
    refine ⟨?_, l, p, d, dn, tm, ?_, ?_, ?_, ?_⟩
    · intro j
      dsimp only
      have hoj := o j
      rw [hw] at hoj
      simpa [workerOwner] using hoj
    · intro j hj
      dsimp only at hj ⊢
      rw [hg] at hj
      simp [guardAliveFor] at hj
      subst hj
      simp [execPhase]
    · intro j hj; dsimp only at hj; cases hj
    · intro j r' hj; dsimp only at hj; cases hj
    · intro j r' hj
      dsimp only at hj ⊢
      cases hj
      rw [hg]
      exact Or.inr (Or.inl rfl)
  | cancelSendFail i r hw hg =>
    refine ⟨?_, l, p, d, dn, tm, ?_, ?_, ?_, ?_⟩
    · intro j
      dsimp only
      have hoj := o j
      rw [hw] at hoj
      simpa [workerOwner] using hoj
    · intro j hj
      dsimp only at hj ⊢
      rw [hg] at hj
      simp [guardAliveFor] at hj
    · intro j hj; dsimp only at hj; cases hj
    · intro j r' hj; dsimp only at hj; cases hj
    · intro j r' hj; dsimp only at hj; cases hj
  | joinDone i r hw hg =>
    refine ⟨?_, l, p, d, dn, tm, ?_, ?_, ?_, ?_⟩
    · intro j
      dsimp only
      have hoj := o j
      rw [hw] at hoj
      simpa [workerOwner] using hoj
    · intro j hj
      dsimp only at hj ⊢
      rw [hg] at hj
      simp [guardAliveFor] at hj
    · intro j hj; dsimp only at hj; cases hj
    · intro j r' hj; dsimp only at hj; cases hj
    · intro j r' hj; dsimp only at hj; cases hj
  | deliverReply i r hw hc =>
    refine ⟨?_, ?_, ?_, ?_, ?_, ?_, ?_, ?_, ?_, ?_⟩
    · intro j
      dsimp only
      simp only [workerOwner]
      constructor
      · intro hj; cases hj
      · intro hj
        by_cases hji : j = i
        · subst hji; rw [setC_self] at hj; cases hj
        · rw [setC_ne _ _ _ _ hji] at hj
          have := (o j).mpr hj
          rw [hw] at this
          simp [workerOwner] at this
          exact absurd this.symm hji
    · intro j
      dsimp only
      constructor
      · intro hj; cases hj
      · intro hj
        by_cases hji : j = i
        · subst hji
          rw [setC_self] at hj
          rcases hj with hj | hj <;> cases hj
        · rw [setC_ne _ _ _ _ hji] at hj
          have h1 := (l j).mpr hj
          have h2 := (l i).mpr (Or.inr hc)
          rw [h2] at h1
          cases h1
          exact absurd rfl hji
    · intro j
      dsimp only
      by_cases hji : j = i
      · subst hji
        rw [setC_self]
        constructor
        · intro _; exact Or.inr ⟨r, rfl⟩
        · intro _; exact (p j).mpr (Or.inl hc)
      · rw [setC_ne _ _ _ _ hji]; exact p j
    · intro j r'
      dsimp only
      by_cases hji : j = i
      · subst hji
        rw [setC_self]
        constructor
        · intro hj
          rcases List.mem_append.mp hj with hj2 | hj2
          · have := (d j r').mp hj2
            rw [hc] at this; cases this
          · rw [List.mem_singleton] at hj2
            cases hj2
            rfl
        · intro hj
          cases hj
          exact List.mem_append.mpr (Or.inr (List.mem_singleton.mpr rfl))
      · rw [setC_ne _ _ _ _ hji]
        constructor
        · intro hj
          rcases List.mem_append.mp hj with hj2 | hj2
          · exact (d j r').mp hj2
          · rw [List.mem_singleton] at hj2
            cases hj2
            exact absurd rfl hji
        · intro hj
          exact List.mem_append.mpr (Or.inl ((d j r').mpr hj))
    · dsimp only
      have hnotin : i ∉ s.delivered.map Prod.fst := by
        intro hmem
        rcases List.mem_map.mp hmem with ⟨q, hq, hq1⟩
        have hgot := (d q.1 q.2).mp hq
        rw [hq1] at hgot
        rw [hc] at hgot
        cases hgot
      rw [List.map_append, List.nodup_append]
      refine ⟨dn, by simp, ?_⟩
      intro x hx hxi
      simp at hxi
      subst hxi
      exact hnotin hx
    · intro j m hj
      dsimp only at hj
      by_cases hji : j = i
      · subst hji; rw [setC_self] at hj; cases hj
      · rw [setC_ne _ _ _ _ hji] at hj; exact tm j m hj
    · intro j hj
      dsimp only at hj ⊢
      have := gl j hj
      rw [hw] at this
      simp [execPhase] at this
    · intro j hj; dsimp only at hj; cases hj
    · intro j r' hj; dsimp only at hj; cases hj
    · intro j r' hj; dsimp only at hj; cases hj
  | loopBack hw =>
    refine ⟨?_, l, p, d, dn, tm, ?_, ?_, ?_, ?_⟩
    · intro j
      dsimp only
      simp only [workerOwner]
      constructor
      · intro hj; cases hj
      · intro hj
        have := (o j).mpr hj
        rw [hw] at this
        simp [workerOwner] at this
    · intro j hj
      dsimp only at hj
      have := gl j hj
      rw [hw] at this
      simp [execPhase] at this
    · intro j hj; dsimp only at hj; cases hj
    · intro j r hj; dsimp only at hj; cases hj
    · intro j r hj; dsimp only at hj; cases hj

theorem inv_steps {cmds : Nat → Cmd} {pp : String → String} {s s' : Sys}
    (h : Inv s) (hs : Steps cmds pp s s') : Inv s' := by
  induction hs with
  | refl => exact h
  | tail _ st ih => exact inv_step ih st

theorem inv_reach {cmds : Nat → Cmd} {pp : String → String} {s : Sys}
    (h : Reach cmds pp s) : Inv s :=
  inv_steps inv_init h

/-- A timed-out caller stays timed out: no step changes its control point. -/
theorem timedOut_step {cmds : Nat → Cmd} {pp : String → String} {s s' : Sys}
    (st : Step cmds pp s s') (i : Nat) (m : String)
    (hi : s.callers i = .timedOut m) : s'.callers i = .timedOut m := by
  cases st with
  | acquireLock j hc hl =>
    dsimp only
    by_cases hij : i = j
    · subst hij; rw [hi] at hc; cases hc
    · rw [setC_ne _ _ _ _ hij]; exact hi
  | lockTimeout j hc =>
    dsimp only
    by_cases hij : i = j
    · subst hij; rw [hi] at hc; cases hc
    · rw [setC_ne _ _ _ _ hij]; exact hi
  | trySendOk j hc hw =>
    dsimp only
    by_cases hij : i = j
    · subst hij; rw [hi] at hc; cases hc
    · rw [setC_ne _ _ _ _ hij]; exact hi
  | trySendFail j hc hw =>
    dsimp only
    by_cases hij : i = j
    · subst hij; rw [hi] at hc; cases hc
    · rw [setC_ne _ _ _ _ hij]; exact hi
  | deliverReply j r hw hc =>
    dsimp only
    by_cases hij : i = j
    · subst hij; rw [hi] at hc; cases hc
    · rw [setC_ne _ _ _ _ hij]; exact hi
  | bootDone hw => exact hi
  | parseOk j u hw hp => exact hi
  | parseErr j m2 hw hp => exact hi
  | guardFire j hg => exact hi
  | guardExit j hg => exact hi
  | guardCancelReceived j hg => exact hi
  | evalDone j hw => exact hi
  | cancelSendOk j r hw hg => exact hi
  | cancelSendOkFired j r hw hg => exact hi
  | cancelSendFail j r hw hg => exact hi
  | joinDone j r hw hg => exact hi
  | loopBack hw => exact hi

theorem timedOut_steps {cmds : Nat → Cmd} {pp : String → String} {s s' : Sys}
    (hs : Steps cmds pp s s') (i : Nat) (m : String)
    (hi : s.callers i = .timedOut m) : s'.callers i = .timedOut m := by
  induction hs with
  | refl => exact hi
  | tail _ st ih => exact timedOut_step st i m ih

/-- From `delivering`, the worker can complete the `rc.send` rendezvous. -/
theorem progressDelivering (cmds : Nat → Cmd) (pp : String → String) (s : Sys) (i : Nat) (r : Except String String)
    (hw : s.worker = .delivering i r) (hc : s.callers i = .awaitReply) :
    ∃ s' r', Steps cmds pp s s' ∧ s'.callers i = .gotResult r' := by
  refine ⟨_, r, Steps.single (Step.deliverReply s i r hw hc), ?_⟩
  dsimp only
  rw [setC_self]

/-- From `joining`, the interruptor thread can finish and be joined, after
which the worker can deliver. -/
theorem progressJoining (cmds : Nat → Cmd) (pp : String → String) (s : Sys) (i : Nat) (r : Except String String)
    (hw : s.worker = .joining i r) (hc : s.callers i = .awaitReply)
    (hg : s.guard = .running i true ∨ s.guard = .firedRunning i ∨ s.guard = .done i) :
    ∃ s' r', Steps cmds pp s s' ∧ s'.callers i = .gotResult r' := by
  rcases hg with hg | hg | hg
  · obtain ⟨s', r', hsteps, hgot⟩ :=
      progressDelivering cmds pp
        { { s with guard := GuardPC.done i } with worker := .delivering i (Except.map pp r) }
        i (Except.map pp r) rfl hc
    exact ⟨s', r', Steps.trans (Steps.tail (Steps.tail (Steps.refl s)
      (Step.guardCancelReceived s i hg)) (Step.joinDone _ i r hw rfl)) hsteps, hgot⟩
  · obtain ⟨s', r', hsteps, hgot⟩ :=
      progressDelivering cmds pp
        { { s with guard := GuardPC.done i } with worker := .delivering i (Except.map pp r) }
        i (Except.map pp r) rfl hc
    exact ⟨s', r', Steps.trans (Steps.tail (Steps.tail (Steps.refl s)
      (Step.guardExit s i hg)) (Step.joinDone _ i r hw rfl)) hsteps, hgot⟩
  · obtain ⟨s', r', hsteps, hgot⟩ :=
      progressDelivering cmds pp
        { s with worker := .delivering i (Except.map pp r) }
        i (Except.map pp r) rfl hc
    exact ⟨s', r', Steps.trans (Steps.single (Step.joinDone s i r hw hg)) hsteps, hgot⟩

/-- From `cancelling`, the worker can get past `send.send(())` (whether it
succeeds or fails) and go on to deliver. -/
theorem progressCancelling (cmds : Nat → Cmd) (pp : String → String) (s : Sys) (i : Nat) (r : Except String String)
    (hw : s.worker = .cancelling i r) (hc : s.callers i = .awaitReply)
    (hg : s.guard = .running i false ∨ s.guard = .firedRunning i ∨ s.guard = .done i) :
    ∃ s' r', Steps cmds pp s s' ∧ s'.callers i = .gotResult r' := by
  rcases hg with hg | hg | hg
  · obtain ⟨s', r', hsteps, hgot⟩ :=
      progressJoining cmds pp
        { s with worker := .joining i r, guard := .running i true } i r rfl hc (Or.inl rfl)
    exact ⟨s', r', Steps.trans (Steps.single (Step.cancelSendOk s i r hw hg)) hsteps, hgot⟩
  · obtain ⟨s', r', hsteps, hgot⟩ :=
      progressJoining cmds pp
        { s with worker := .joining i r } i r rfl hc (Or.inr (Or.inl hg))
    exact ⟨s', r', Steps.trans (Steps.single (Step.cancelSendOkFired s i r hw hg)) hsteps, hgot⟩
  · obtain ⟨s', r', hsteps, hgot⟩ :=
      progressDelivering cmds pp
        { s with worker := .delivering i (.error "error sending res: SendError(())") }
        i (.error "error sending res: SendError(())") rfl hc
    exact ⟨s', r', Steps.trans (Steps.single (Step.cancelSendFail s i r hw hg)) hsteps, hgot⟩

/-- From `evaluating`, the evaluation can return and the execution finish. -/
theorem progressEvaluating (cmds : Nat → Cmd) (pp : String → String) (s : Sys) (i : Nat)
    (hw : s.worker = .evaluating i) (hc : s.callers i = .awaitReply)
    (hg : s.guard = .running i false ∨ s.guard = .firedRunning i ∨ s.guard = .done i) :
    ∃ s' r', Steps cmds pp s s' ∧ s'.callers i = .gotResult r' := by
  obtain ⟨s', r', hsteps, hgot⟩ :=
    progressCancelling cmds pp
      { s with worker := .cancelling i (cmds i).runResult } i (cmds i).runResult rfl hc hg
  exact ⟨s', r', Steps.trans (Steps.single (Step.evalDone s i hw)) hsteps, hgot⟩

/-- From `parsing`, either parse outcome leads to a delivered result. -/
theorem progressParsing (cmds : Nat → Cmd) (pp : String → String) (s : Sys) (i : Nat)
    (hw : s.worker = .parsing i) (hc : s.callers i = .awaitReply) :
    ∃ s' r', Steps cmds pp s s' ∧ s'.callers i = .gotResult r' := by
  cases hp : (cmds i).parse with
  | ok u =>
    obtain ⟨s', r', hsteps, hgot⟩ :=
      progressEvaluating cmds pp
        { s with worker := .evaluating i, guard := .running i false } i rfl hc (Or.inl rfl)
    exact ⟨s', r', Steps.trans (Steps.single (Step.parseOk s i u hw hp)) hsteps, hgot⟩
  | error m =>
    obtain ⟨s', r', hsteps, hgot⟩ :=
      progressDelivering cmds pp
        { s with worker := .delivering i (.error ("parse error: " ++ m)) }
        i (.error ("parse error: " ++ m)) rfl hc
    exact ⟨s', r', Steps.trans (Steps.single (Step.parseErr s i m hw hp)) hsteps, hgot⟩

/-- A caller blocked on its reply slot can always be served: some
continuation of the system delivers it a result. -/
theorem progressAwait (cmds : Nat → Cmd) (pp : String → String) (s : Sys) (i : Nat) (hinv : Inv s) (hc : s.callers i = .awaitReply) :
    ∃ s' r, Steps cmds pp s s' ∧ s'.callers i = .gotResult r := by
  have howner := (hinv.owner_iff i).mpr hc
  cases hworker : s.worker with
  | booting => rw [hworker] at howner; cases howner
  | atRecv => rw [hworker] at howner; cases howner
  | looping => rw [hworker] at howner; cases howner
  | parsing c =>
    rw [hworker] at howner
    simp [workerOwner] at howner
    rw [howner] at hworker
    exact progressParsing cmds pp s i hworker hc
  | evaluating c =>
    rw [hworker] at howner
    simp [workerOwner] at howner
    rw [howner] at hworker
    exact progressEvaluating cmds pp s i hworker hc (hinv.g_eval i hworker)
  | cancelling c r =>
    rw [hworker] at howner
    simp [workerOwner] at howner
    rw [howner] at hworker
    exact progressCancelling cmds pp s i r hworker hc (hinv.g_cancel i r hworker)
  | joining c r =>
    rw [hworker] at howner
    simp [workerOwner] at howner
    rw [howner] at hworker
    exact progressJoining cmds pp s i r hworker hc (hinv.g_join i r hworker)
  | delivering c r =>
    rw [hworker] at howner
    simp [workerOwner] at howner
    rw [howner] at hworker
    exact progressDelivering cmds pp s i r hworker hc

/-- In a list of delivery records whose caller ids are distinct, the
records for caller `i` are exactly the one known entry. -/
theorem filter_delivered_singleton {l : List (Nat × Except String String)}
    {i : Nat} {r : Except String String}
    (hn : (l.map Prod.fst).Nodup) (hm : (i, r) ∈ l)
    (hu : ∀ q ∈ l, q.1 = i → q = (i, r)) :
    l.filter (fun q => decide (q.1 = i)) = [(i, r)] := by
  induction l with
  | nil => cases hm
  | cons a l ih =>
    rw [List.map_cons, List.nodup_cons] at hn
    obtain ⟨ha, hn⟩ := hn
    rcases List.mem_cons.mp hm with heq | hm2
    · have hfe : l.filter (fun q => decide (q.1 = i)) = [] := by
        rw [List.filter_eq_nil_iff]
        intro q hq
        simp only [decide_eq_true_eq]
        intro hq1
        rw [← heq] at ha
        exact ha (List.mem_map.mpr ⟨q, hq, hq1⟩)
      rw [List.filter_cons, ← heq, hfe]
      simp
    · have hai : a.1 ≠ i := by
        intro haeq
        exact ha (List.mem_map.mpr ⟨(i, r), hm2, by rw [haeq]⟩)
      rw [List.filter_cons, if_neg (by simp [hai])]
      exact ih hn hm2 (fun q hq hq1 => hu q (List.mem_cons_of_mem a hq) hq1)

/-! ## The claims -/

/-- Claim C3: for every command whose text fails to parse, `run_string`
returns an error result carrying the parser's description prefixed with
"parse error: ", no Deadline Guard thread is spawned, the interrupt
signal is never asserted, and the evaluator's compile+run step is never
invoked for that command. -/
theorem claimC3 (pp : String → String) (e : EvalSpec) (m : String)
    (hp : e.parse = .error m) :
    run_string pp e =
      { result := .error ("parse error: " ++ m), guardSpawned := false,
        evalInvoked := false, interruptCount := 0, joinedGuard := false } := by
  simp [run_string, hp]

theorem claimC3_witness :
    specBad.parse = .error "unexpected EOF" ∧
    run_string id specBad =
      { result := .error ("parse error: " ++ "unexpected EOF"), guardSpawned := false,
        evalInvoked := false, interruptCount := 0, joinedGuard := false } :=
  ⟨rfl, claimC3 id specBad "unexpected EOF" rfl⟩

/-- Claim C4: for every execution supervised by a Deadline Guard, if the
cancel message arrives within 5 seconds of the guard's start (the cancel
is sent when compile+run returns, `runSeconds` after the guard was
spawned), the guard's timer thread exits without asserting the interrupt
signal; otherwise the guard asserts the interrupt signal exactly once. -/
theorem claimC4 (pp : String → String) (e : EvalSpec) (u : Unit)
    (hp : e.parse = .ok u) :
    (e.runSeconds ≤ executionDeadlineSecs → (run_string pp e).interruptCount = 0) ∧
    (executionDeadlineSecs < e.runSeconds → (run_string pp e).interruptCount = 1) := by
  constructor
  · intro h
    have hf : decide (executionDeadlineSecs < e.runSeconds) = false := by
      simp
      omega
    simp [run_string, hp, hf]
  · intro h
    have hf : decide (executionDeadlineSecs < e.runSeconds) = true := by
      simp
      omega
    cases hge : e.guardExitedBeforeCancel <;> simp [run_string, hp, hf, hge]

theorem claimC4_witness :
    (specFast.parse = .ok () ∧ specFast.runSeconds ≤ executionDeadlineSecs ∧
      (run_string id specFast).interruptCount = 0) ∧
    (specSlow.parse = .ok () ∧ executionDeadlineSecs < specSlow.runSeconds ∧
      (run_string id specSlow).interruptCount = 1) :=
  ⟨⟨rfl, by decide, (claimC4 id specFast () rfl).1 (by decide)⟩,
   ⟨rfl, by decide, (claimC4 id specSlow () rfl).2 (by decide)⟩⟩

/-- Claim C8: the queue-submit deadline is exactly 15 seconds, the
per-execution deadline is exactly 5 seconds, and the queue-submit
deadline is strictly greater than the execution deadline. -/
theorem claimC8 :
    queueAccessDeadlineSecs = 15 ∧ executionDeadlineSecs = 5 ∧
      executionDeadlineSecs < queueAccessDeadlineSecs := by
  refine ⟨rfl, rfl, ?_⟩
  decide

/-- Claim C10: for every inbound message that produces a rendered reply
(success or error; the source-link path is excluded), the string posted
to the chat platform contains at most 1000 characters. -/
theorem claimC10 (trimmedContent : String) (result : Except String String) :
    (limitResponse (renderResponse trimmedContent result)).length ≤ 1000 :=
  List.length_take_le 1000 (renderResponse trimmedContent result).toList

/-- Claim C6, amended: if sending the result into the caller's reply slot
fails (the caller has vanished), the `unwrap` on `rc.send` panics: the
worker loop terminates at once and serves no further request, rather than
continuing.  (The claim as stated - the failure is not escalated and the
loop continues - is refuted by `claimC6_counterexample`.) -/
theorem claimC6_amended (pp : String → String) (e : EvalSpec)
    (rs : List IncomingRequest) (closedAfter : Bool) :
    workerLoop pp ({ command := e, receiverAlive := false } :: rs) closedAfter =
      ([], .panickedOnDeliver) := by
  simp [workerLoop]

/-- Claim C6, counterexample: with a first request whose caller has
vanished and a second live request behind it, the worker loop delivers
nothing and ends in a panic instead of continuing with the next
request. -/
theorem claimC6_counterexample :
    (workerLoop id [reqDeadReceiver, reqLiveReceiver] false).1 = [] ∧
    (workerLoop id [reqDeadReceiver, reqLiveReceiver] false).2 = .panickedOnDeliver := by
  constructor <;> rfl

/-- Claim C7, amended: as long as every delivery succeeds, the worker
loop never exits while the request channel's sending side remains open,
processes every request, and exits exactly when the channel is closed;
but a failed delivery panics the loop even with the channel open.  (The
unconditional claim is refuted by `claimC7_counterexample`.) -/
theorem claimC7_amended (pp : String → String) (reqs : List IncomingRequest)
    (closedAfter : Bool) (halive : ∀ r ∈ reqs, r.receiverAlive = true) :
    (workerLoop pp reqs false).2 = .waitingOnRecv ∧
    (workerLoop pp reqs true).2 = .exitedChannelClosed ∧
    (workerLoop pp reqs closedAfter).1.length = reqs.length := by
  induction reqs with
  | nil => cases closedAfter <;> simp [workerLoop]
  | cons r rs ih =>
    have hr : r.receiverAlive = true := halive r (List.mem_cons_self r rs)
    obtain ⟨ih1, ih2, ih3⟩ := ih (fun q hq => halive q (List.mem_cons_of_mem r hq))
    refine ⟨?_, ?_, ?_⟩
    · simp [workerLoop, hr, ih1]
    · simp [workerLoop, hr, ih2]
    · simp [workerLoop, hr, ih3]

theorem claimC7_amended_witness :
    (workerLoop id [reqLiveReceiver] false).2 = .waitingOnRecv ∧
    (workerLoop id [reqLiveReceiver] true).2 = .exitedChannelClosed ∧
    (workerLoop id [reqLiveReceiver] false).1.length = [reqLiveReceiver].length :=
  claimC7_amended id [reqLiveReceiver] false (by decide)

/-- Claim C7, counterexample: a run of the worker loop with the channel
still open that nevertheless terminates (by the delivery panic), refuting
"the loop never exits while the sending side remains open". -/
theorem claimC7_counterexample :
    ¬ ∀ (reqs : List IncomingRequest), (workerLoop id reqs false).2 = .waitingOnRecv := by
  intro hall
  exact absurd (hall [reqDeadReceiver]) (by decide)

/-- Claim C1, amended: the enqueue step is `try_send` on the
zero-capacity channel, which does not block: it succeeds exactly when the
Worker is currently blocked in `recv.recv()`, and when the Worker is not
at its receive the error branch is taken and the `unwrap` panics the
submit call even though the caller holds the enqueue lock.  (The claim as
stated - the handoff never fails and never panics - is refuted by
`claimC1_counterexample`.) -/
theorem claimC1_amended {cmds : Nat → Cmd} {pp : String → String} {s s' : Sys} {i : Nat}
    (st : Step cmds pp s s') (hi : s.callers i = .hasLock) :
    (s'.callers i = .awaitReply → s.worker = .atRecv) ∧
    (s'.callers i = .panicked → s.worker ≠ .atRecv) := by
  cases st with
  | trySendOk j hc hw =>
    refine ⟨fun _ => hw, ?_⟩
    intro hj
    dsimp only at hj
    by_cases hij : i = j
    · subst hij; rw [setC_self] at hj; cases hj
    · rw [setC_ne _ _ _ _ hij] at hj; rw [hi] at hj; cases hj
  | trySendFail j hc hw =>
    refine ⟨?_, fun _ => hw⟩
    intro hj
    dsimp only at hj
    by_cases hij : i = j
    · subst hij; rw [setC_self] at hj; cases hj
    · rw [setC_ne _ _ _ _ hij] at hj; rw [hi] at hj; cases hj
  | acquireLock j hc hl =>
    constructor
    · intro hj
      dsimp only at hj
      by_cases hij : i = j
      · subst hij; rw [setC_self] at hj; cases hj
      · rw [setC_ne _ _ _ _ hij] at hj; rw [hi] at hj; cases hj
    · intro hj
      dsimp only at hj
      by_cases hij : i = j
      · subst hij; rw [setC_self] at hj; cases hj
      · rw [setC_ne _ _ _ _ hij] at hj; rw [hi] at hj; cases hj
  | lockTimeout j hc =>
    constructor
    · intro hj
      dsimp only at hj
      by_cases hij : i = j
      · subst hij; rw [setC_self] at hj; cases hj
      · rw [setC_ne _ _ _ _ hij] at hj; rw [hi] at hj; cases hj
    · intro hj
      dsimp only at hj
      by_cases hij : i = j
      · subst hij; rw [setC_self] at hj; cases hj
      · rw [setC_ne _ _ _ _ hij] at hj; rw [hi] at hj; cases hj
  | deliverReply j r hw hc =>
    constructor
    · intro hj
      dsimp only at hj
      by_cases hij : i = j
      · subst hij; rw [hi] at hc; cases hc
      · rw [setC_ne _ _ _ _ hij] at hj; rw [hi] at hj; cases hj
    · intro hj
      dsimp only at hj
      by_cases hij : i = j
      · subst hij; rw [hi] at hc; cases hc
      · rw [setC_ne _ _ _ _ hij] at hj; rw [hi] at hj; cases hj
  | bootDone hw =>
    constructor <;> intro hj <;> dsimp only at hj <;> rw [hi] at hj <;> cases hj
  | parseOk j u hw hp =>
    constructor <;> intro hj <;> dsimp only at hj <;> rw [hi] at hj <;> cases hj
  | parseErr j m hw hp =>
    constructor <;> intro hj <;> dsimp only at hj <;> rw [hi] at hj <;> cases hj
  | guardFire j hg =>
    constructor <;> intro hj <;> dsimp only at hj <;> rw [hi] at hj <;> cases hj
  | guardExit j hg =>
    constructor <;> intro hj <;> dsimp only at hj <;> rw [hi] at hj <;> cases hj
  | guardCancelReceived j hg =>
    constructor <;> intro hj <;> dsimp only at hj <;> rw [hi] at hj <;> cases hj
  | evalDone j hw =>
    constructor <;> intro hj <;> dsimp only at hj <;> rw [hi] at hj <;> cases hj
  | cancelSendOk j r hw hg =>
    constructor <;> intro hj <;> dsimp only at hj <;> rw [hi] at hj <;> cases hj
  | cancelSendOkFired j r hw hg =>
    constructor <;> intro hj <;> dsimp only at hj <;> rw [hi] at hj <;> cases hj
  | cancelSendFail j r hw hg =>
    constructor <;> intro hj <;> dsimp only at hj <;> rw [hi] at hj <;> cases hj
  | joinDone j r hw hg =>
    constructor <;> intro hj <;> dsimp only at hj <;> rw [hi] at hj <;> cases hj
  | loopBack hw =>
    constructor <;> intro hj <;> dsimp only at hj <;> rw [hi] at hj <;> cases hj

theorem claimC1_amended_witness : sMid2.worker = .atRecv :=
  (@claimC1_amended cmdsOk id sMid2 _ 0
    (@Step.trySendOk cmdsOk id sMid2 0 rfl rfl) rfl).1 rfl

/-- Claim C1, counterexample: a reachable state in which caller 0 holds
the enqueue lock while the worker has not reached its receive (it is
still initializing the interpreter), and the next step of that caller is
the failing `try_send` whose `unwrap` panics - so the error branch of the
enqueue step is reachable and the handoff can fail. -/
theorem claimC1_counterexample :
    Reach cmdsOk id sLockedBoot ∧ sLockedBoot.callers 0 = .hasLock ∧
    sLockedBoot.lock = some 0 ∧
    Step cmdsOk id sLockedBoot sPanicked ∧ sPanicked.callers 0 = .panicked := by
  refine ⟨Steps.single (Step.acquireLock initSys 0 rfl rfl), rfl, rfl, ?_, rfl⟩
  exact Step.trySendFail sLockedBoot 0 rfl (by decide)

/-- Claim C2: a caller whose lock acquisition timed out carries exactly
the error "timeout waiting for interpreter lock", and in every later
reachable state its command was never handed to the Worker: it is not in
the processed history, the Worker never holds its request, and no result
is ever delivered for it.  Moreover the deadline bound: any wait longer
than `queueAccessDeadlineSecs` makes the lock acquisition return that
same error. -/
theorem claimC2 {cmds : Nat → Cmd} {pp : String → String} {s s' : Sys} {i : Nat} {m : String}
    (hreach : Reach cmds pp s) (hto : s.callers i = .timedOut m)
    (hsteps : Steps cmds pp s s') :
    m = "timeout waiting for interpreter lock" ∧
    i ∉ s'.processed ∧
    workerOwner s'.worker ≠ some i ∧
    (∀ r, (i, r) ∉ s'.delivered) ∧
    (∀ w, queueAccessDeadlineSecs < w →
      acquireSendLock w = .error "timeout waiting for interpreter lock") := by
  have hinv := inv_reach hreach
  have hto' := timedOut_steps hsteps i m hto
  have hinv' := inv_steps hinv hsteps
  refine ⟨hinv.timeout_msg i m hto, ?_, ?_, ?_, ?_⟩
  · intro hmem
    rcases (hinv'.proc_iff i).mp hmem with h2 | ⟨r, h2⟩ <;> rw [hto'] at h2 <;> cases h2
  · intro hepc
    have h2 := (hinv'.owner_iff i).mp hepc
    rw [hto'] at h2
    cases h2
  · intro r hmem
    have h2 := (hinv'.deliv_iff i r).mp hmem
    rw [hto'] at h2
    cases h2
  · intro w hw2
    simp only [acquireSendLock]
    rw [if_neg (by omega)]

theorem claimC2_witness :
    "timeout waiting for interpreter lock" = "timeout waiting for interpreter lock" ∧
    0 ∉ sTimedOut.processed ∧
    workerOwner sTimedOut.worker ≠ some 0 ∧
    (∀ r, (0, r) ∉ sTimedOut.delivered) ∧
    (∀ w, queueAccessDeadlineSecs < w →
      acquireSendLock w = .error "timeout waiting for interpreter lock") :=
  claimC2 (Steps.single (@Step.lockTimeout cmdsOk id initSys 0 rfl)) rfl
    (Steps.refl sTimedOut)

/-- Claim C5: in every reachable state, while the Worker is delivering a
result the interruptor thread of that execution is no longer alive (the
Worker got past the cancel/join point first), and every assertion of the
interrupt signal happens while the Worker is still inside the execution
the asserting guard supervises - so no guard thread of one execution ever
asserts the interrupt during a later execution. -/
theorem claimC5 {cmds : Nat → Cmd} {pp : String → String} {s : Sys}
    (hreach : Reach cmds pp s) :
    (∀ i r, s.worker = .delivering i r → guardAlive s.guard = false) ∧
    (∀ s' i, Step cmds pp s s' → s'.interruptsFor = s.interruptsFor ++ [i] →
      execPhase s.worker = some i) := by
  have hinv := inv_reach hreach
  constructor
  · intro i r hw
    cases hg : s.guard with
    | off => rfl
    | done c => rfl
    | running c b =>
      exfalso
      have h2 := hinv.guard_live c (by rw [hg]; rfl)
      rw [hw] at h2
      simp [execPhase] at h2
    | firedRunning c =>
      exfalso
      have h2 := hinv.guard_live c (by rw [hg]; rfl)
      rw [hw] at h2
      simp [execPhase] at h2
  · intro s' i st hint
    cases st
    case guardFire j hg =>
      dsimp only at hint
      have hji : j = i := by
        have h2 := List.append_cancel_left hint
        simpa using h2
      subst hji
      exact hinv.guard_live j (by rw [hg]; rfl)
    all_goals exfalso
    all_goals dsimp only at hint
    all_goals have h2 := congrArg List.length hint
    all_goals rw [List.length_append] at h2
    all_goals simp at h2

theorem claimC5_witness : guardAlive sErr.guard = false :=
  (claimC5 (Steps.tail (Steps.tail (Steps.tail (Steps.single
      (@Step.bootDone cmdsBad id initSys rfl))
      (@Step.acquireLock cmdsBad id sMid1 0 rfl rfl))
      (@Step.trySendOk cmdsBad id sMid2 0 rfl rfl))
      (@Step.parseErr cmdsBad id sMid3 0 "unexpected EOF" rfl rfl))).1 0
    (.error ("parse error: " ++ "unexpected EOF")) rfl

/-- Claim C9: in every reachable state, at most one caller's request is
being processed (two callers blocked on their reply slot are the same
caller - the mutual exclusion that makes two commands' effects on
evaluator state non-interleaved); a caller holding a result was delivered
to exactly once (its entries in the delivery history are exactly one);
and every caller that completed the handoff can be driven by the system
to receive a result. -/
theorem claimC9 {cmds : Nat → Cmd} {pp : String → String} {s : Sys}
    (hreach : Reach cmds pp s) :
    (∀ i j, s.callers i = .awaitReply → s.callers j = .awaitReply → i = j) ∧
    (∀ i r, s.callers i = .gotResult r →
      s.delivered.filter (fun q => decide (q.1 = i)) = [(i, r)]) ∧
    (∀ i, s.callers i = .awaitReply →
      ∃ s' r, Steps cmds pp s s' ∧ s'.callers i = .gotResult r) := by
  have hinv := inv_reach hreach
  refine ⟨?_, ?_, ?_⟩
  · intro i j hi hj
    have h1 := (hinv.owner_iff i).mpr hi
    have h2 := (hinv.owner_iff j).mpr hj
    rw [h1] at h2
    injection h2
  · intro i r hi
    refine filter_delivered_singleton hinv.deliv_nodup ((hinv.deliv_iff i r).mpr hi) ?_
    intro q hq hq1
    have hq2 := (hinv.deliv_iff q.1 q.2).mp hq
    rw [hq1] at hq2
    rw [hi] at hq2
    injection hq2 with h3
    have h4 : q = (q.1, q.2) := rfl
    rw [h4, hq1, ← h3]
  · intro i hi
    exact progressAwait cmds pp s i hinv hi

theorem claimC9_witness :
    sDone.delivered.filter (fun q => decide (q.1 = 0)) = [(0, Except.ok "3")] :=
  (claimC9 (Steps.tail (Steps.tail (Steps.tail (Steps.tail (Steps.tail (Steps.tail
      (Steps.tail (Steps.tail (Steps.single
      (@Step.bootDone cmdsOk id initSys rfl))
      (@Step.acquireLock cmdsOk id sMid1 0 rfl rfl))
      (@Step.trySendOk cmdsOk id sMid2 0 rfl rfl))
      (@Step.parseOk cmdsOk id sMid3 0 () rfl rfl))
      (@Step.evalDone cmdsOk id sMid4 0 rfl))
      (@Step.cancelSendOk cmdsOk id sMid5 0 (.ok "3") rfl rfl))
      (@Step.guardCancelReceived cmdsOk id sMid6 0 rfl))
      (@Step.joinDone cmdsOk id sMid7 0 (.ok "3") rfl rfl))
      (@Step.deliverReply cmdsOk id sMid8 0 (.ok "3") rfl rfl))).2.1 0 (.ok "3") rfl


end PeroxideDiscord
